import Mathlib

/-!
Shallow embedding of the computational core of `Dashboard.py`
(class `MomentForceCalculator`): the load register, the moment and force
aggregation, the moment diagram, the section property calculator, the
material catalog with its allowable-stress rule, the deflection sum and
the applied-load sum used for the safety coefficient.

Python floats are modelled as real numbers (the trigonometric functions
force `ℝ`); the material catalog, whose constants are exact decimal
literals and whose logic is pure dictionary lookup and string matching,
is modelled over `ℚ` so that it evaluates by `decide`/`rfl`.
-/

namespace Dashboard

/-- A load register entry, mirroring the dictionaries appended to
`self.forces`: variant `ponctuelle` stores the fields
`valeur, distance, angle, moment, force_perp` and variant `repartie`
stores `valeur, debut, fin, longueur, force_equiv, moment_equiv`. -/
inductive LoadEntry where
  | ponctuelle (valeur distance angle moment force_perp : ℝ)
  | repartie (valeur debut fin longueur force_equiv moment_equiv : ℝ)

/-- `math.radians`: degrees to radians, `deg * (pi / 180)`. -/
noncomputable def radians (deg : ℝ) : ℝ := deg * (Real.pi / 180)

/-- `calculate_moment_force(force, distance, angle)`:
`force_perp = force * sin(radians(angle))`, `moment = force_perp * distance`;
returns `(moment, force_perp)`. -/
noncomputable def calculate_moment_force (force distance angle : ℝ) : ℝ × ℝ :=
  let angle_rad := radians angle
  let force_perp := force * Real.sin angle_rad
  let moment := force_perp * distance
  (moment, force_perp)

/-- The point-load submission handler (`create_force_input_section`, left
column): on `force_value > 0` it computes
`calculate_moment_force(force_value * 1000, distance, angle)` and appends a
`ponctuelle` entry, emitting a success message (`st.success`, modelled as the
Boolean second component); otherwise nothing happens at all — no append, no
message, no error. -/
noncomputable def addPointLoad (forces : List LoadEntry)
    (force_value distance angle : ℝ) : List LoadEntry × Bool :=
  if 0 < force_value then
    let r := calculate_moment_force (force_value * 1000) distance angle
    (forces ++ [LoadEntry.ponctuelle force_value distance angle r.1 r.2], true)
  else
    (forces, false)

/-- The distributed-load submission handler (`create_force_input_section`,
right column): on `load_value > 0 and end_pos > start_pos` it computes
`length`, `force_equiv = load_value * length`,
`moment_equiv = force_equiv * (start_pos + length/2)` and appends a
`repartie` entry, emitting a success message; otherwise nothing happens —
no append, no message, no error. -/
noncomputable def addDistributedLoad (forces : List LoadEntry)
    (load_value start_pos end_pos : ℝ) : List LoadEntry × Bool :=
  if 0 < load_value ∧ start_pos < end_pos then
    let length := end_pos - start_pos
    let force_equiv := load_value * length
    let moment_equiv := force_equiv * (start_pos + length / 2)
    (forces ++ [LoadEntry.repartie load_value start_pos end_pos length
        force_equiv moment_equiv], true)
  else
    (forces, false)

/-- The total-moment accumulation of `create_moment_calculation_section`:
point entries add `moment`, distributed entries add `moment_equiv * 1000`
(the comment in the source reads `# Conversion en N.m`). -/
def total_moment (forces : List LoadEntry) : ℝ :=
  forces.foldl (fun acc f =>
    match f with
    | LoadEntry.ponctuelle _ _ _ moment _ => acc + moment
    | LoadEntry.repartie _ _ _ _ _ moment_equiv => acc + moment_equiv * 1000) 0

/-- The total-force accumulation of `create_moment_calculation_section`:
point entries add `force_perp`, distributed entries add
`force_equiv * 1000` (`# Conversion en N`). -/
def total_force (forces : List LoadEntry) : ℝ :=
  forces.foldl (fun acc f =>
    match f with
    | LoadEntry.ponctuelle _ _ _ _ force_perp => acc + force_perp
    | LoadEntry.repartie _ _ _ _ force_equiv _ => acc + force_equiv * 1000) 0

/-- The moments of the point entries of a register, in encounter order
(spec side of C1: the point-load summands of `total_moment`). -/
def pointMoments (forces : List LoadEntry) : List ℝ :=
  forces.filterMap (fun f =>
    match f with
    | LoadEntry.ponctuelle _ _ _ moment _ => some moment
    | LoadEntry.repartie _ _ _ _ _ _ => none)

/-- The `moment_equiv` fields of the distributed entries of a register
(spec side of C1). -/
def distMoments (forces : List LoadEntry) : List ℝ :=
  forces.filterMap (fun f =>
    match f with
    | LoadEntry.ponctuelle _ _ _ _ _ => none
    | LoadEntry.repartie _ _ _ _ _ moment_equiv => some moment_equiv)

/-- The `force_perp` fields of the point entries of a register
(spec side of C1). -/
def pointForces (forces : List LoadEntry) : List ℝ :=
  forces.filterMap (fun f =>
    match f with
    | LoadEntry.ponctuelle _ _ _ _ force_perp => some force_perp
    | LoadEntry.repartie _ _ _ _ _ _ => none)

/-- The `force_equiv` fields of the distributed entries of a register
(spec side of C1). -/
def distForces (forces : List LoadEntry) : List ℝ :=
  forces.filterMap (fun f =>
    match f with
    | LoadEntry.ponctuelle _ _ _ _ _ => none
    | LoadEntry.repartie _ _ _ _ force_equiv _ => some force_equiv)

/-- The sample positions of the moment diagram: `np.linspace(0, span, n)`,
i.e. `x_i = span * i / (n - 1)` for `i < n`. The source instantiates it as
`np.linspace(0, 10, 100)`; span and sample count are the parameters the
spec gives to `moment_diagram`. -/
noncomputable def linspace (span : ℝ) (n : ℕ) : List ℝ :=
  (List.range n).map (fun (i : ℕ) => span * (i : ℝ) / ((n : ℝ) - 1))

/-- The per-entry summand of the moment diagram loop
(`create_moment_calculation_section`): a point entry adds
`moment / 1000` when `x >= distance`; a distributed entry, when
`x >= debut`, adds `valeur * (x - debut)**2 / 2` if `x <= fin` and
`moment_equiv` otherwise; in all remaining cases it adds nothing. -/
noncomputable def momentContrib (x : ℝ) : LoadEntry → ℝ
  | LoadEntry.ponctuelle _ distance _ moment _ =>
      if distance ≤ x then moment / 1000 else 0
  | LoadEntry.repartie valeur debut fin _ _ moment_equiv =>
      if debut ≤ x then
        (if x ≤ fin then valeur * (x - debut) ^ 2 / 2 else moment_equiv)
      else 0

/-- The moment diagram of `create_moment_calculation_section`: at each
sample position the contributions of all registered loads are accumulated.
The source builds the same data as an array indexed like `x_points`
(with `span = 10`, `n = 100`); here it is the list of
`(position, moment)` pairs the spec describes. -/
noncomputable def momentDiagram (forces : List LoadEntry) (span : ℝ)
    (n : ℕ) : List (ℝ × ℝ) :=
  (linspace span n).map (fun x =>
    (x, forces.foldl (fun acc f => acc + momentContrib x f) 0))

/-- Per-entry diagram contribution as claim C6 words it, after the one
amendment the code forces: a point load at distance `d` contributes its
moment divided by 1000 (not the stored `moment` itself) for `x ≥ d` and 0
for `x < d`; a distributed load over `[start, end]` contributes the
quadratic ramp for `start ≤ x ≤ end`, the flat `moment_equiv` for
`x > end`, and 0 before `start`. -/
noncomputable def claimContrib (x : ℝ) : LoadEntry → ℝ
  | LoadEntry.ponctuelle _ d _ moment _ => if d ≤ x then moment / 1000 else 0
  | LoadEntry.repartie v s e _ _ me =>
      if s ≤ x ∧ x ≤ e then v * (x - s) ^ 2 / 2
      else if e < x then me else 0

/-- Well-formedness of an entry: a distributed entry covers a genuine
interval (`debut ≤ fin`). Every entry the submission handlers produce
satisfies it. -/
def wfEntry : LoadEntry → Prop
  | LoadEntry.ponctuelle _ _ _ _ _ => True
  | LoadEntry.repartie _ debut fin _ _ _ => debut ≤ fin

/-- `calculate_section_properties(width, height, section_type)`: the three
recognized section types and their `(area, inertia, module_inertie)`
formulas; any other tag leaves the local variables unbound in the source
(`UnboundLocalError`), modelled as `none`. -/
noncomputable def calculate_section_properties (width height : ℝ)
    (section_type : String) : Option (ℝ × ℝ × ℝ) :=
  if section_type = "rectangulaire" then
    let area := width * height
    let inertia := (width * height ^ 3) / 12
    let module_inertie := inertia / (height / 2)
    some (area, inertia, module_inertie)
  else if section_type = "circulaire" then
    let diameter := width
    let area := (Real.pi * diameter ^ 2) / 4
    let inertia := (Real.pi * diameter ^ 4) / 64
    let module_inertie := inertia / (diameter / 2)
    some (area, inertia, module_inertie)
  else if section_type = "en I" then
    let area := width * height * 0.8
    let inertia := (width * height ^ 3) / 12 * 0.7
    let module_inertie := inertia / (height / 2)
    some (area, inertia, module_inertie)
  else none

/-- A material catalog record: the Python dictionaries hold `E` and
`weight` for every material but only one strength key each —
`fc` for the concretes, `fy` for the steels, `fm` for the wood class.
Absent keys are `none`; reading one raises `KeyError` in the source. -/
structure MatProps where
  elastic : ℚ
  fc : Option ℚ
  fy : Option ℚ
  fm : Option ℚ
  weight : ℚ
deriving DecidableEq

/-- The `self.materials` catalog of `MomentForceCalculator.__init__`. -/
def materials : List (String × MatProps) :=
  [("Béton C25/30", ⟨30000000000, some 25000000, none, none, 2500⟩),
   ("Béton C30/37", ⟨33000000000, some 30000000, none, none, 2500⟩),
   ("Acier S235", ⟨210000000000, none, some 235000000, none, 7850⟩),
   ("Acier S355", ⟨210000000000, none, some 355000000, none, 7850⟩),
   ("Acier S500", ⟨210000000000, none, some 500000000, none, 7850⟩),
   ("Bois Classe C24", ⟨11000000000, none, none, some 24000000, 420⟩)]

/-- Dictionary lookup `self.materials[name]`. -/
def lookupMat (name : String) : Option MatProps :=
  materials.lookup name

/-- Whether one character list is a prefix of another (helper for the
Python substring test). -/
def charsPrefix : List Char → List Char → Bool
  | [], _ => true
  | _ :: _, [] => false
  | a :: as, b :: bs => a == b && charsPrefix as bs

/-- Whether the pattern occurs as a contiguous sublist (helper for the
Python substring test). -/
def charsContain (pat : List Char) : List Char → Bool
  | [] => charsPrefix pat []
  | c :: cs => charsPrefix pat (c :: cs) || charsContain pat cs

/-- Python `pattern in s` on strings: substring containment. -/
def strContains (s pattern : String) : Bool :=
  charsContain pattern.data s.data

/-- The allowable-stress rule of `create_moment_calculation_section`:
`if "Acier" in material_props: fy / 1.15 else: fc / 1.5`. A missing
dictionary key (`KeyError` in the source) is `none`. -/
def contrainte_adm (name : String) : Option ℚ :=
  match lookupMat name with
  | none => none
  | some p =>
      if strContains name "Acier" then p.fy.map (fun v => v / 1.15)
      else p.fc.map (fun v => v / 1.5)

/-- The center-point deflection formula of `create_structural_analysis`
(and of the spec): `f = P * L^3 / (48 * E * I)`. -/
noncomputable def deflection_point_center (force span elastic inertia : ℝ) : ℝ :=
  (force * span ^ 3) / (48 * elastic * inertia)

/-- The hard-coded inertia estimate of the deflection tab:
`I_est = 0.3 * 0.5**3 / 12`. -/
noncomputable def I_est : ℝ := 0.3 * 0.5 ^ 3 / 12

/-- The deflection accumulation of `create_structural_analysis`: every
point entry adds `(valeur * 1000) * L^3 / (48 * E * I_est)`; distributed
entries are skipped. -/
noncomputable def fleche_max (forces : List LoadEntry) (longueur elastic : ℝ) : ℝ :=
  forces.foldl (fun acc f =>
    match f with
    | LoadEntry.ponctuelle valeur _ _ _ _ =>
        acc + deflection_point_center (valeur * 1000) longueur elastic I_est
    | LoadEntry.repartie _ _ _ _ _ _ => acc) 0

/-- The `valeur` field of an entry: the raw user input (kN for a point
load, kN/m for a distributed load). -/
def valeur : LoadEntry → ℝ
  | LoadEntry.ponctuelle v _ _ _ _ => v
  | LoadEntry.repartie v _ _ _ _ _ => v

/-- The applied load of the stability tab:
`charge_appliquee = sum([f['valeur'] for f in self.forces])`. -/
def charge_appliquee (forces : List LoadEntry) : ℝ :=
  (forces.map valeur).sum

/-- The summand an entry contributes to `total_moment`: `moment` for a
point entry, `moment_equiv * 1000` for a distributed one. -/
def mcontrib : LoadEntry → ℝ
  | LoadEntry.ponctuelle _ _ _ moment _ => moment
  | LoadEntry.repartie _ _ _ _ _ moment_equiv => moment_equiv * 1000

/-- The summand an entry contributes to `total_force`: `force_perp` for a
point entry, `force_equiv * 1000` for a distributed one. -/
def fcontrib : LoadEntry → ℝ
  | LoadEntry.ponctuelle _ _ _ _ force_perp => force_perp
  | LoadEntry.repartie _ _ _ _ force_equiv _ => force_equiv * 1000

/-- The summand an entry contributes to `fleche_max`: the center-point
deflection term for a point entry, nothing for a distributed one. -/
noncomputable def deflContrib (longueur elastic : ℝ) : LoadEntry → ℝ
  | LoadEntry.ponctuelle valeur _ _ _ _ =>
      deflection_point_center (valeur * 1000) longueur elastic I_est
  | LoadEntry.repartie _ _ _ _ _ _ => 0

/-- The deflection terms of the point entries of a register (spec side of
C7: the summands `force * span^3 / (48 * E * inertia)` over point loads
only, at the inertia estimate the code hard-wires). -/
noncomputable def pointDeflectionTerms (forces : List LoadEntry)
    (longueur elastic : ℝ) : List ℝ :=
  forces.filterMap (fun f =>
    match f with
    | LoadEntry.ponctuelle v _ _ _ _ =>
        some ((v * 1000) * longueur ^ 3 / (48 * elastic * I_est))
    | LoadEntry.repartie _ _ _ _ _ _ => none)

end Dashboard

namespace Dashboard

/-! ## Helper lemmas -/

lemma foldl_step_sum (g : LoadEntry → ℝ) (step : ℝ → LoadEntry → ℝ)
    (hstep : ∀ a f, step a f = a + g f) :
    ∀ (l : List LoadEntry) (a : ℝ), l.foldl step a = a + (l.map g).sum := by
  intro l
  induction l with
  | nil => intro a; simp
  | cons f t ih =>
      intro a
      simp only [List.foldl_cons, List.map_cons, List.sum_cons, hstep, ih]
      ring

lemma total_moment_eq_sum (l : List LoadEntry) :
    total_moment l = (l.map mcontrib).sum := by
  have h := foldl_step_sum mcontrib
    (fun acc f =>
      match f with
      | LoadEntry.ponctuelle _ _ _ moment _ => acc + moment
      | LoadEntry.repartie _ _ _ _ _ moment_equiv => acc + moment_equiv * 1000)
    (fun a f => by cases f <;> rfl) l 0
  simpa [total_moment] using h

lemma total_force_eq_sum (l : List LoadEntry) :
    total_force l = (l.map fcontrib).sum := by
  have h := foldl_step_sum fcontrib
    (fun acc f =>
      match f with
      | LoadEntry.ponctuelle _ _ _ _ force_perp => acc + force_perp
      | LoadEntry.repartie _ _ _ _ force_equiv _ => acc + force_equiv * 1000)
    (fun a f => by cases f <;> rfl) l 0
  simpa [total_force] using h

lemma map_mcontrib_split (l : List LoadEntry) :
    (l.map mcontrib).sum
      = (pointMoments l).sum + ((distMoments l).map (fun m => m * 1000)).sum := by
  induction l with
  | nil => simp [pointMoments, distMoments]
  | cons f t ih =>
      cases f <;>
        simp [pointMoments, distMoments, mcontrib, List.filterMap_cons, ih] <;>
        ring

lemma map_fcontrib_split (l : List LoadEntry) :
    (l.map fcontrib).sum
      = (pointForces l).sum + ((distForces l).map (fun v => v * 1000)).sum := by
  induction l with
  | nil => simp [pointForces, distForces]
  | cons f t ih =>
      cases f <;>
        simp [pointForces, distForces, fcontrib, List.filterMap_cons, ih] <;>
        ring

/-! ## Claim theorems -/

/-- C1: `total_moment` is the sum of the point entries' stored `moment`
fields plus the sum of the distributed entries' `moment_equiv` fields each
multiplied by 1000, and `total_force` is the sum of the point entries'
`force_perp` fields plus the sum of the distributed entries' `force_equiv`
fields each multiplied by 1000: the ×1000 conversion is applied to the
distributed contributions at summation time. -/
theorem C1_total_sums (fs : List LoadEntry) :
    total_moment fs
        = (pointMoments fs).sum + ((distMoments fs).map (fun m => m * 1000)).sum
      ∧ total_force fs
        = (pointForces fs).sum + ((distForces fs).map (fun v => v * 1000)).sum := by
  refine ⟨?_, ?_⟩
  · rw [total_moment_eq_sum, map_mcontrib_split]
  · rw [total_force_eq_sum, map_fcontrib_split]

/-- C9: `total_moment` and `total_force` are invariant under any
permutation of the load register. -/
theorem C9_perm_invariant (fs gs : List LoadEntry) (h : fs.Perm gs) :
    total_moment fs = total_moment gs ∧ total_force fs = total_force gs := by
  constructor
  · rw [total_moment_eq_sum, total_moment_eq_sum]
    exact (h.map mcontrib).sum_eq
  · rw [total_force_eq_sum, total_force_eq_sum]
    exact (h.map fcontrib).sum_eq

/-- C9 witness: the two aggregates agree on a concrete two-entry register
and its swap. -/
theorem C9_perm_invariant_witness :
    total_moment [LoadEntry.repartie 5 0 4 4 20 40,
        LoadEntry.ponctuelle 10 2 90 20000 10000]
      = total_moment [LoadEntry.ponctuelle 10 2 90 20000 10000,
        LoadEntry.repartie 5 0 4 4 20 40]
    ∧ total_force [LoadEntry.repartie 5 0 4 4 20 40,
        LoadEntry.ponctuelle 10 2 90 20000 10000]
      = total_force [LoadEntry.ponctuelle 10 2 90 20000 10000,
        LoadEntry.repartie 5 0 4 4 20 40] :=
  C9_perm_invariant _ _
    (List.Perm.swap (LoadEntry.ponctuelle 10 2 90 20000 10000)
      (LoadEntry.repartie 5 0 4 4 20 40) [])

/-- C10: the applied load feeding the safety coefficient is the sum of the
raw `valeur` fields, so a point load contributes its magnitude (kN) and a
distributed load contributes its intensity (kN/m) — not its equivalent
force `intensity * (end - start)`. -/
theorem C10_applied_load (fs : List LoadEntry) (h : fs ≠ []) :
    charge_appliquee fs = (fs.map valeur).sum
      ∧ (∀ v s e len fe me,
          charge_appliquee (fs ++ [LoadEntry.repartie v s e len fe me])
            = charge_appliquee fs + v)
      ∧ (∀ v d a m fp,
          charge_appliquee (fs ++ [LoadEntry.ponctuelle v d a m fp])
            = charge_appliquee fs + v) := by
  refine ⟨rfl, ?_, ?_⟩
  · intro v s e len fe me
    simp [charge_appliquee, valeur]
  · intro v d a m fp
    simp [charge_appliquee, valeur]

/-- C10 witness: on the register holding one point load of 10 kN, the
applied load is 10, and appending the distributed load of intensity
5 kN/m over `[0, 4]` adds 5 (its intensity), not 20 (its equivalent
force). -/
theorem C10_applied_load_witness :
    charge_appliquee [LoadEntry.ponctuelle 10 2 90 20000 10000]
        = ([LoadEntry.ponctuelle 10 2 90 20000 10000].map valeur).sum
      ∧ (∀ v s e len fe me,
          charge_appliquee
              ([LoadEntry.ponctuelle 10 2 90 20000 10000]
                ++ [LoadEntry.repartie v s e len fe me])
            = charge_appliquee [LoadEntry.ponctuelle 10 2 90 20000 10000] + v)
      ∧ (∀ v d a m fp,
          charge_appliquee
              ([LoadEntry.ponctuelle 10 2 90 20000 10000]
                ++ [LoadEntry.ponctuelle v d a m fp])
            = charge_appliquee [LoadEntry.ponctuelle 10 2 90 20000 10000] + v) :=
  C10_applied_load [LoadEntry.ponctuelle 10 2 90 20000 10000] (by simp)

/-- C3 counterexample: submitting a distributed load with `end == start`
(here 5 kN/m over `[2, 2]`) leaves the register unchanged but emits no
message at all — the source merely skips the guarded block, so no
`InvalidInput` error is raised and the user is shown nothing, contrary to
the claim. -/
theorem C3_counterexample : addDistributedLoad [] 5 2 2 = ([], false) := by
  have h : ¬ ((0 : ℝ) < 5 ∧ (2 : ℝ) < 2) := by norm_num
  simp [addDistributedLoad, h]

/-- C3 (amended): an invalid submission — a point load with
`magnitude ≤ 0`, or a distributed load with `intensity ≤ 0` or
`end ≤ start` (including `end == start`) — is silently ignored: the
register is left unchanged and no entry is appended, but no `InvalidInput`
error is raised and no message is shown to the user. -/
theorem C3_invalid_silently_ignored :
    (∀ (fs : List LoadEntry) (v d a : ℝ), v ≤ 0 →
        addPointLoad fs v d a = (fs, false))
      ∧ (∀ (fs : List LoadEntry) (v s e : ℝ), v ≤ 0 ∨ e ≤ s →
        addDistributedLoad fs v s e = (fs, false)) := by
  constructor
  · intro fs v d a hv
    simp [addPointLoad, not_lt.mpr hv]
  · intro fs v s e h
    have hc : ¬ (0 < v ∧ s < e) := by
      rcases h with h | h
      · exact fun hx => absurd hx.1 (not_lt.mpr h)
      · exact fun hx => absurd hx.2 (not_lt.mpr h)
    simp [addDistributedLoad, hc]

/-- C3 witness: a zero-magnitude point load and a zero-length distributed
load are both silently dropped. -/
theorem C3_invalid_silently_ignored_witness :
    addPointLoad [] 0 2 90 = ([], false)
      ∧ addDistributedLoad [] 3 2 2 = ([], false) :=
  ⟨C3_invalid_silently_ignored.1 [] 0 2 90 (by norm_num),
   C3_invalid_silently_ignored.2 [] 3 2 2 (Or.inr (by norm_num))⟩

/-- C4: `calculate_moment_force` returns
`moment = magnitude * sin(radians(angle)) * distance` and
`force_perp = magnitude * sin(radians(angle))`; the moment vanishes at
`angle = 0` and `angle = 180`, and over `angle ∈ [0, 180]` (indeed over
all angles) it is maximal at `angle = 90` for fixed positive magnitude
and nonnegative distance. -/
theorem C4_point_moment (magnitude distance angle : ℝ) (hm : 0 < magnitude)
    (hd : 0 ≤ distance) (ha0 : 0 ≤ angle) (ha1 : angle ≤ 180) :
    (calculate_moment_force magnitude distance angle).1
        = magnitude * Real.sin (radians angle) * distance
      ∧ (calculate_moment_force magnitude distance angle).2
        = magnitude * Real.sin (radians angle)
      ∧ (angle = 0 → (calculate_moment_force magnitude distance angle).1 = 0)
      ∧ (angle = 180 → (calculate_moment_force magnitude distance angle).1 = 0)
      ∧ (calculate_moment_force magnitude distance angle).1
        ≤ (calculate_moment_force magnitude distance 90).1 := by
  refine ⟨rfl, rfl, ?_, ?_, ?_⟩
  · intro h
    subst h
    simp [calculate_moment_force, radians]
  · intro h
    subst h
    have h180 : radians 180 = Real.pi := by rw [radians]; ring
    show magnitude * Real.sin (radians 180) * distance = 0
    rw [h180, Real.sin_pi]
    ring
  · have h90 : radians 90 = Real.pi / 2 := by rw [radians]; ring
    show magnitude * Real.sin (radians angle) * distance
        ≤ magnitude * Real.sin (radians 90) * distance
    rw [h90, Real.sin_pi_div_two]
    nlinarith [Real.sin_le_one (radians angle), mul_nonneg hm.le hd]

/-- C4 witness: the formula, the two vanishing cases (vacuously, as
45 ≠ 0, 180) and the maximality bound at the concrete input
`magnitude = 10`, `distance = 2`, `angle = 45`. -/
theorem C4_point_moment_witness :
    (calculate_moment_force 10 2 45).1 = 10 * Real.sin (radians 45) * 2
      ∧ (calculate_moment_force 10 2 45).2 = 10 * Real.sin (radians 45)
      ∧ ((45 : ℝ) = 0 → (calculate_moment_force 10 2 45).1 = 0)
      ∧ ((45 : ℝ) = 180 → (calculate_moment_force 10 2 45).1 = 0)
      ∧ (calculate_moment_force 10 2 45).1
        ≤ (calculate_moment_force 10 2 90).1 :=
  C4_point_moment 10 2 45 (by norm_num) (by norm_num) (by norm_num)
    (by norm_num)

/-- C5: a valid distributed-load submission appends exactly one entry with
`force_equiv = intensity * (end - start)` and
`moment_equiv = force_equiv * (start + (end - start) / 2)` (the force
times the centroid distance from the origin), and the centroid
`start + (end - start) / 2` lies strictly between `start` and `end`. -/
theorem C5_distributed_entry (fs : List LoadEntry) (v s e : ℝ)
    (hv : 0 < v) (hse : s < e) :
    addDistributedLoad fs v s e
        = (fs ++ [LoadEntry.repartie v s e (e - s) (v * (e - s))
            (v * (e - s) * (s + (e - s) / 2))], true)
      ∧ s < s + (e - s) / 2 ∧ s + (e - s) / 2 < e := by
  refine ⟨?_, by linarith, by linarith⟩
  simp [addDistributedLoad, hv, hse]

/-- C5 witness: the spec scenario, intensity 5 kN/m over `[0, 4]`:
`force_equiv = 20`, `moment_equiv = 40`, centroid 2 strictly inside. -/
theorem C5_distributed_entry_witness :
    addDistributedLoad [] 5 0 4
        = ([] ++ [LoadEntry.repartie 5 0 4 (4 - 0) (5 * (4 - 0))
            (5 * (4 - 0) * (0 + (4 - 0) / 2))], true)
      ∧ (0 : ℝ) < 0 + (4 - 0) / 2 ∧ (0 : ℝ) + (4 - 0) / 2 < 4 :=
  C5_distributed_entry [] 5 0 4 (by norm_num) (by norm_num)
lemma fleche_max_eq_sum (l : List LoadEntry) (longueur elastic : ℝ) :
    fleche_max l longueur elastic = (l.map (deflContrib longueur elastic)).sum := by
  have h := foldl_step_sum (deflContrib longueur elastic)
    (fun acc f =>
      match f with
      | LoadEntry.ponctuelle valeur _ _ _ _ =>
          acc + deflection_point_center (valeur * 1000) longueur elastic I_est
      | LoadEntry.repartie _ _ _ _ _ _ => acc)
    (fun a f => by cases f <;> simp [deflContrib]) l 0
  simpa [fleche_max] using h

lemma map_deflContrib_eq (l : List LoadEntry) (longueur elastic : ℝ) :
    (l.map (deflContrib longueur elastic)).sum
      = (pointDeflectionTerms l longueur elastic).sum := by
  induction l with
  | nil => simp [pointDeflectionTerms]
  | cons f t ih =>
      cases f <;>
        simp [pointDeflectionTerms, deflContrib, deflection_point_center,
          List.filterMap_cons, ih]

/-- C7: the computed maximum deflection is the sum, over the point entries
only, of `force * span^3 / (48 * E * inertia)` (with `force` the magnitude
in N and `inertia` the estimate the code fixes); appending a distributed
entry leaves the deflection unchanged, and the center-point formula holds
for every force, span, modulus and inertia. -/
theorem C7_deflection_sum (fs : List LoadEntry) (longueur elastic : ℝ) :
    fleche_max fs longueur elastic
        = (pointDeflectionTerms fs longueur elastic).sum
      ∧ (∀ v s e len fe me,
          fleche_max (fs ++ [LoadEntry.repartie v s e len fe me])
              longueur elastic
            = fleche_max fs longueur elastic)
      ∧ (∀ force span el inertia, deflection_point_center force span el inertia
            = force * span ^ 3 / (48 * el * inertia)) := by
  refine ⟨?_, ?_, fun _ _ _ _ => rfl⟩
  · rw [fleche_max_eq_sum, map_deflContrib_eq]
  · intro v s e len fe me
    rw [fleche_max_eq_sum, fleche_max_eq_sum]
    simp [deflContrib]

/-- C8: the three section types and their `(area, inertia, modulus)`
triples: rectangular `(w*h, w*h^3/12, inertia/(h/2))`, circular with the
width read as the diameter and the height unused
`(pi*d^2/4, pi*d^4/64, inertia/(d/2))`, and the approximate I-beam
`(0.8*w*h, 0.7*(w*h^3/12), inertia/(h/2))`. -/
theorem C8_section_properties (w h : ℝ) (hw : 0 < w) (hh : 0 < h) :
    calculate_section_properties w h "rectangulaire"
        = some (w * h, w * h ^ 3 / 12, (w * h ^ 3 / 12) / (h / 2))
      ∧ calculate_section_properties w h "circulaire"
        = some (Real.pi * w ^ 2 / 4, Real.pi * w ^ 4 / 64,
            (Real.pi * w ^ 4 / 64) / (w / 2))
      ∧ calculate_section_properties w h "en I"
        = some (0.8 * (w * h), 0.7 * (w * h ^ 3 / 12),
            (0.7 * (w * h ^ 3 / 12)) / (h / 2)) := by
  refine ⟨?_, ?_, ?_⟩ <;>
    simp [calculate_section_properties, Prod.ext_iff] <;>
    (repeat' constructor) <;>
    first | trivial | ring

/-- C8 witness: the spec scenario, `width = 0.3`, `height = 0.5`. -/
theorem C8_section_properties_witness :
    calculate_section_properties 0.3 0.5 "rectangulaire"
        = some ((0.3 : ℝ) * 0.5, 0.3 * 0.5 ^ 3 / 12,
            ((0.3 : ℝ) * 0.5 ^ 3 / 12) / (0.5 / 2))
      ∧ calculate_section_properties 0.3 0.5 "circulaire"
        = some (Real.pi * 0.3 ^ 2 / 4, Real.pi * 0.3 ^ 4 / 64,
            (Real.pi * 0.3 ^ 4 / 64) / (0.3 / 2))
      ∧ calculate_section_properties 0.3 0.5 "en I"
        = some ((0.8 : ℝ) * (0.3 * 0.5), 0.7 * (0.3 * 0.5 ^ 3 / 12),
            ((0.7 : ℝ) * (0.3 * 0.5 ^ 3 / 12)) / (0.5 / 2)) :=
  C8_section_properties 0.3 0.5 (by norm_num) (by norm_num)

lemma contrib_eq (x : ℝ) (f : LoadEntry) (hf : wfEntry f) :
    momentContrib x f = claimContrib x f := by
  cases f with
  | ponctuelle v d a m fp => rfl
  | repartie v s e len fe me =>
      have hse : s ≤ e := hf
      simp only [momentContrib, claimContrib]
      by_cases h1 : s ≤ x
      · by_cases h2 : x ≤ e
        · rw [if_pos h1, if_pos h2, if_pos ⟨h1, h2⟩]
        · rw [if_pos h1, if_neg h2, if_neg (fun hc => h2 hc.2),
            if_pos (not_le.mp h2)]
      · have hxe : x < e := lt_of_lt_of_le (not_le.mp h1) hse
        rw [if_neg h1, if_neg (fun hc => h1 hc.1), if_neg (not_lt.mpr hxe.le)]

/-- C6 (amended): for any register whose distributed entries span genuine
intervals and any `span` and `samples ≥ 2`, the moment diagram is the list
of `(position, moment)` pairs over the `samples` evenly spaced positions
covering `[0, span]`; a point load at distance `d` contributes its stored
moment divided by 1000 for `x ≥ d` and 0 for `x < d`, and a distributed
load over `[start, end]` contributes `intensity * (x - start)^2 / 2` for
`start ≤ x ≤ end`, its flat `moment_equiv` for `x > end`, and 0 before
`start`. -/
theorem C6_moment_diagram (fs : List LoadEntry) (span : ℝ) (n : ℕ)
    (hn : 2 ≤ n) (hwf : ∀ f ∈ fs, wfEntry f) :
    momentDiagram fs span n
        = (linspace span n).map (fun x => (x, (fs.map (claimContrib x)).sum))
      ∧ (linspace span n).length = n
      ∧ (∀ i, i < n → (linspace span n).getD i 0 = span * i / ((n : ℝ) - 1))
      ∧ (linspace span n).getD 0 0 = 0
      ∧ (linspace span n).getD (n - 1) 0 = span
      ∧ (∀ i, i + 1 < n →
          (linspace span n).getD (i + 1) 0 - (linspace span n).getD i 0
            = span / ((n : ℝ) - 1)) := by
  have hc : ((n : ℝ) - 1) ≠ 0 := by
    have h2 : (2 : ℝ) ≤ (n : ℝ) := by exact_mod_cast hn
    have : (1 : ℝ) < (n : ℝ) := by linarith
    exact ne_of_gt (by linarith)
  have hlen : (linspace span n).length = n := by
    rw [linspace, List.length_map, List.length_range]
  have hget : ∀ i, i < n →
      (linspace span n).getD i 0 = span * i / ((n : ℝ) - 1) := by
    intro i hi
    have hi2 : i < (linspace span n).length := by rw [hlen]; exact hi
    rw [List.getD_eq_getElem _ _ hi2]
    simp only [linspace, List.getElem_map, List.getElem_range]
  refine ⟨?_, hlen, hget, ?_, ?_, ?_⟩
  · rw [momentDiagram]
    refine List.map_congr_left (fun x hx => ?_)
    have hsum := foldl_step_sum (momentContrib x)
      (fun acc f => acc + momentContrib x f) (fun a f => rfl) fs 0
    have hmap : fs.map (momentContrib x) = fs.map (claimContrib x) :=
      List.map_congr_left (fun f hf => contrib_eq x f (hwf f hf))
    rw [hsum, hmap, zero_add]
  · rw [hget 0 (by omega)]
    simp
  · rw [hget (n - 1) (by omega), Nat.cast_sub (by omega : 1 ≤ n)]
    rw [Nat.cast_one, mul_div_assoc, div_self hc, mul_one]
  · intro i hi
    rw [hget (i + 1) hi, hget i (by omega), div_sub_div_same]
    congr 1
    push_cast
    ring

/-- C6 witness: on the register with one point load (angle 90, stored
moment 20000 N.m) and one distributed load of 5 kN/m over `[0, 4]`, the
two-sample diagram over `[0, 10]` satisfies the amended description. -/
theorem C6_moment_diagram_witness :
    momentDiagram [LoadEntry.ponctuelle 10 2 90 20000 10000,
          LoadEntry.repartie 5 0 4 4 20 40] 10 2
        = (linspace 10 2).map (fun x =>
            (x, ([LoadEntry.ponctuelle 10 2 90 20000 10000,
              LoadEntry.repartie 5 0 4 4 20 40].map (claimContrib x)).sum))
      ∧ (linspace 10 2).length = 2
      ∧ (∀ i, i < 2 → (linspace 10 2).getD i 0
          = 10 * i / (((2 : ℕ) : ℝ) - 1))
      ∧ (linspace 10 2).getD 0 0 = 0
      ∧ (linspace 10 2).getD (2 - 1) 0 = 10
      ∧ (∀ i, i + 1 < 2 →
          (linspace 10 2).getD (i + 1) 0 - (linspace 10 2).getD i 0
            = 10 / (((2 : ℕ) : ℝ) - 1)) :=
  C6_moment_diagram
    [LoadEntry.ponctuelle 10 2 90 20000 10000,
      LoadEntry.repartie 5 0 4 4 20 40] 10 2 (by norm_num)
    (by
      intro f hf
      simp only [List.mem_cons, List.not_mem_nil, or_false] at hf
      rcases hf with rfl | rfl <;> norm_num [wfEntry])

/-- C6 counterexample: the register holding the single point entry stored
for a 10 kN load at distance 2 (stored moment 20000 N.m): at sample
position 10 the diagram value is 20, not the stored moment 20000 the
claim asserts — the code divides the stored point moment by 1000. -/
theorem C6_counterexample :
    momentDiagram [LoadEntry.ponctuelle 10 2 90 20000 10000] 10 2
        = [(0, 0), (10, 20)]
      ∧ momentDiagram [LoadEntry.ponctuelle 10 2 90 20000 10000] 10 2
        ≠ [(0, 0), (10, 20000)] := by
  have hl : linspace 10 2 = [0, 10] := by
    simp [linspace, List.range_succ]
    norm_num
  have h0 : momentContrib 0 (LoadEntry.ponctuelle 10 2 90 20000 10000) = 0 := by
    simp only [momentContrib]
    rw [if_neg (by norm_num : ¬ ((2 : ℝ) ≤ 0))]
  have h10 : momentContrib 10 (LoadEntry.ponctuelle 10 2 90 20000 10000)
      = 20 := by
    simp only [momentContrib]
    rw [if_pos (by norm_num : (2 : ℝ) ≤ 10)]
    norm_num
  have hcomp : momentDiagram [LoadEntry.ponctuelle 10 2 90 20000 10000] 10 2
      = [(0, 0), (10, 20)] := by
    rw [momentDiagram, hl]
    simp [h0, h10]
  refine ⟨hcomp, ?_⟩
  rw [hcomp]
  intro h
  simp only [List.cons.injEq, Prod.mk.injEq] at h
  norm_num at h

/-- C2 counterexample: for the wood material the else branch reads the
missing concrete-strength key `fc` — a `KeyError` in the source, `none`
here — so wood does not silently yield its strength constant divided by
1.5 as the claim asserts. -/
theorem C2_counterexample :
    contrainte_adm "Bois Classe C24" = none
      ∧ contrainte_adm "Bois Classe C24" ≠ some (24000000 / (1.5 : ℚ)) := by
  have h : contrainte_adm "Bois Classe C24" = none := by decide
  exact ⟨h, by rw [h]; simp⟩

/-- C2 (amended): materials whose name contains "Acier" get
`fy / 1.15`; every other material falls into the concrete branch reading
`fc / 1.5` — which yields the concretes their `fc / 1.5`, but fails with
a `KeyError` (`none`) for the wood class, whose record has no `fc` key. -/
theorem C2_allowable_stress :
    contrainte_adm "Acier S235" = some (235000000 / (1.15 : ℚ))
      ∧ contrainte_adm "Acier S355" = some (355000000 / (1.15 : ℚ))
      ∧ contrainte_adm "Acier S500" = some (500000000 / (1.15 : ℚ))
      ∧ contrainte_adm "Béton C25/30" = some (25000000 / (1.5 : ℚ))
      ∧ contrainte_adm "Béton C30/37" = some (30000000 / (1.5 : ℚ))
      ∧ contrainte_adm "Bois Classe C24" = none := by
  refine ⟨?_, ?_, ?_, ?_, ?_, by decide⟩
  · have h : lookupMat "Acier S235"
        = some ⟨210000000000, none, some 235000000, none, 7850⟩ := by decide
    have h2 : strContains "Acier S235" "Acier" = true := by decide
    rw [contrainte_adm, h, h2]
    norm_num
  · have h : lookupMat "Acier S355"
        = some ⟨210000000000, none, some 355000000, none, 7850⟩ := by decide
    have h2 : strContains "Acier S355" "Acier" = true := by decide
    rw [contrainte_adm, h, h2]
    norm_num
  · have h : lookupMat "Acier S500"
        = some ⟨210000000000, none, some 500000000, none, 7850⟩ := by decide
    have h2 : strContains "Acier S500" "Acier" = true := by decide
    rw [contrainte_adm, h, h2]
    norm_num
  · have h : lookupMat "Béton C25/30"
        = some ⟨30000000000, some 25000000, none, none, 2500⟩ := by decide
    have h2 : strContains "Béton C25/30" "Acier" = false := by decide
    rw [contrainte_adm, h, h2]
    norm_num
  · have h : lookupMat "Béton C30/37"
        = some ⟨33000000000, some 30000000, none, none, 2500⟩ := by decide
    have h2 : strContains "Béton C30/37" "Acier" = false := by decide
    rw [contrainte_adm, h, h2]
    norm_num

end Dashboard
